import Mathlib

/-!
Shallow embedding of `examples-ft/classification/delta.py` (DELTA-style
fine-tuning driver of the Transfer-Learning-Library repository).

Tensors are scalarized to `ℚ`; batches, parameters, activation-capture
buffers, meters, the cyclic training-data iterator, the checkpoint store and
the epoch/phase dispatch of `main` are embedded as explicit data.  External
collaborators (the backbone forward pass, `F.cross_entropy`, the `accuracy`
metric and the SGD update) are fields of a context record `Ctx`, matching the
spec's "consumed via stable interfaces" framing.  The helper module
`ftlib.finetune.delta` and the `common.utils` helpers are imported by the
driver but are not part of the source tree; they are modelled from the spec
where a claim depends on them (each such definition's doc comment starts with
"Modelled from the spec:").
-/

set_option autoImplicit false

namespace Delta

/-- One parameter tensor (scalarized): its dotted name, current value, and
its `requires_grad` flag. -/
structure P where
  name : String
  value : ℚ
  requires_grad : Bool
deriving DecidableEq, Repr, Inhabited

/-- The parameters of one `Classifier` instance: the pretrained backbone's
named parameters and the (newly initialized) classification head. -/
structure NetParams where
  backbone : List P
  head : List P
deriving DecidableEq, Repr, Inhabited

/-- All parameters of the network, `backbone` then `head`
(`classifier.parameters()`). -/
def NetParams.allParams (m : NetParams) : List P :=
  m.backbone ++ m.head

/-- delta.py lines 79-80: `for param in source_classifier.parameters():
param.requires_grad = False`. -/
def freezeNet (m : NetParams) : NetParams :=
  { backbone := m.backbone.map (fun p => { p with requires_grad := false }),
    head := m.head.map (fun p => { p with requires_grad := false }) }

/-- delta.py lines 90-95: the source-weight snapshot, a map from backbone
parameter name to its frozen (detached) value, taken once at startup from
`source_classifier.backbone.named_parameters()`. -/
def sourceWeightSnapshot (src : NetParams) : List (String × ℚ) :=
  src.backbone.map (fun p => (p.name, p.value))

/-- The `--reg_type` selector, argparse choices at delta.py line 285. -/
inductive RegType
  | l2
  | l2_sp
  | fea_map
  | att_fea_map
deriving DecidableEq, Repr, Inhabited

/-- The `--phase` selector, argparse choices at delta.py line 307. -/
inductive Phase
  | train
  | test
deriving DecidableEq, Repr, Inhabited

/-- The run-level hyperparameters the embedded code reads. -/
structure Args where
  alpha : ℚ
  beta : ℚ
  reg_type : RegType
  iters_per_epoch : ℕ
  epochs : ℕ
  phase : Phase
deriving DecidableEq, Repr, Inhabited

/-- Python exceptions the embedded code can raise: `FileNotFoundError` from
`torch.load` on a missing checkpoint, and `AttributeError` from calling
`.item()` on a plain Python float. -/
inductive PyError
  | fileNotFound
  | attributeError
deriving DecidableEq, Repr, Inhabited

/-- A Python value that is either a torch tensor or a plain Python float
(delta.py line 176 initializes `loss_feature = -10.0`, a plain float). -/
inductive TorchVal
  | tensor (v : ℚ)
  | pyfloat (v : ℚ)
deriving DecidableEq, Repr, Inhabited

/-- The numeric value, as used by Python arithmetic (`tensor + float` and
`float * float` both succeed). -/
def TorchVal.toQ : TorchVal → ℚ
  | .tensor v => v
  | .pyfloat v => v

/-- The `.item()` method: defined on tensors; a plain Python float has no
`.item()`, so the call raises `AttributeError`. -/
def TorchVal.item : TorchVal → Except PyError ℚ
  | .tensor v => .ok v
  | .pyfloat _ => .error .attributeError

/-- Modelled from the spec: `reg_classifier` from `ftlib.finetune.delta`
(imported at delta.py line 18; that module is not under src).  Spec §4.2,
`l2` strategy: "sum of squared magnitudes of the trainable classification
head's weights". -/
def reg_classifier (m : NetParams) : ℚ :=
  (m.head.map (fun p => p.value ^ 2)).sum

/-- First value bound to a given name in an association list of named
weights (the source-weight snapshot). -/
def findWeight (sw : List (String × ℚ)) (n : String) : Option ℚ :=
  match sw with
  | [] => none
  | (k, v) :: t => if k = n then some v else findWeight t n

/-- Modelled from the spec: `reg_l2sp` from `ftlib.finetune.delta` (not under
src).  Spec §4.2, `l2_sp` strategy: "sum over all matched trainable-network
parameters of squared distance to the corresponding frozen source-weight
snapshot value.  Parameters present in the target but absent from the
snapshot (e.g., a newly initialized classification head) are excluded." -/
def reg_l2sp (m : NetParams) (sw : List (String × ℚ)) : ℚ :=
  (m.allParams.filterMap
    (fun p => (findWeight sw p.name).map (fun s => (p.value - s) ^ 2))).sum

/-- Modelled from the spec: the pairing part of `reg_fea_map` from
`ftlib.finetune.delta` (not under src).  Spec §4.2, `fea_map` strategy: "for
each corresponding pair of (source, target) captured activations at matching
layer index, computes a squared-difference penalty ... summed ... across the
registered layers".  The frozen source forward that repopulates the source
buffer is performed by the caller (the training step), as the spec's §4.3
state machine requires. -/
def reg_fea_map (source_layers target_layers : List ℚ) : ℚ :=
  ((source_layers.zip target_layers).map (fun q => (q.1 - q.2) ^ 2)).sum

/-- External collaborators consumed via stable interfaces (spec §1, §6): the
backbone forward pass (class logits and the hooked per-layer activations, a
function of the network's parameters and the input batch), torch's
cross-entropy loss, the top-1/top-5 accuracy metric, and the SGD update that
`optimizer.step()` applies to the parameters the optimizer holds. -/
structure Ctx where
  logits : NetParams → ℚ → ℚ
  acts : NetParams → ℚ → List ℚ
  crossEntropy : ℚ → ℚ → ℚ
  accuracy1 : ℚ → ℚ → ℚ
  accuracy5 : ℚ → ℚ → ℚ
  sgd : ℚ → NetParams → NetParams

/-- Modelled from the spec: `common.utils.meter.AverageMeter` (imported at
delta.py line 25; not under src).  Spec §4.4: the loop "accumulates loss and
top-1/top-5 accuracy ... and returns the mean top-1 accuracy for the pass";
`update val n` adds a value with sample-count weight `n`, `avg` is the
weighted mean. -/
structure AverageMeter where
  sum : ℚ
  count : ℚ
deriving DecidableEq, Repr, Inhabited

def AverageMeter.empty : AverageMeter := ⟨0, 0⟩

def AverageMeter.update (m : AverageMeter) (val : ℚ) (n : ℚ) : AverageMeter :=
  ⟨m.sum + val * n, m.count + n⟩

def AverageMeter.avg (m : AverageMeter) : ℚ :=
  m.sum / m.count

/-- One (image batch, label batch) pair; `n` is the batch size `x.size(0)`
used as the meter weight. -/
structure Batch where
  x : ℚ
  label : ℚ
  n : ℚ
deriving DecidableEq, Repr, Inhabited

def batchDefault : Batch := ⟨0, 0, 0⟩

/-- The mutable state the training and evaluation loops act on: the target
(trainable) classifier's parameters, the frozen source classifier's
parameters, and the two global activation-capture buffers `target_layers`
and `source_layers` (delta.py lines 85-88). -/
structure NetState where
  targetParams : NetParams
  sourceParams : NetParams
  targetLayers : List ℚ
  sourceLayers : List ℚ
deriving DecidableEq, Repr, Inhabited

/-- Which hooked forward pass an event records. -/
inductive FwdKind
  | trainTarget
  | trainSource
  | valTarget
deriving DecidableEq, Repr, Inhabited

/-- Observation of one hooked forward pass: which forward it was, the content
of the capture buffer it repopulates at the moment the forward begins, and
whether torch gradient tracking was enabled (the evaluation loop runs under
`torch.no_grad()`, delta.py line 218). -/
structure FwdEvent where
  kind : FwdKind
  preBuffer : List ℚ
  gradEnabled : Bool
deriving DecidableEq, Repr, Inhabited

/-- The four meters of `train` (delta.py lines 143-146; the two wall-clock
meters are not represented). -/
structure TrainMeters where
  losses : AverageMeter
  losses_fc : AverageMeter
  losses_feature : AverageMeter
  cls_accs : AverageMeter
deriving DecidableEq, Repr, Inhabited

def TrainMeters.empty : TrainMeters :=
  ⟨AverageMeter.empty, AverageMeter.empty, AverageMeter.empty, AverageMeter.empty⟩

/-- Everything one successful training iteration produces. -/
structure StepRes where
  st : NetState
  meters : TrainMeters
  events : List FwdEvent
  y : ℚ
  cls_loss : ℚ
  loss_fc : ℚ
  loss_feature : TorchVal
  loss : ℚ
deriving DecidableEq, Repr, Inhabited

/-- One iteration of the training loop, delta.py lines 160-199:
clear both capture buffers (161-162); forward the target network, the hooks
appending its activations (171); cross-entropy classification loss (173);
`loss_fc = reg_classifier(model)` unconditionally (175);
`loss_feature = -10.0` then reassigned only for `l2_sp` and `fea_map`
(176-181, the `fea_map` branch also running the frozen source forward that
repopulates `source_layers`); total loss
`cls_loss + alpha * loss_feature + beta * loss_fc` (183); meter updates
(185-190), where line 188 calls `.item()` on `loss_feature`; backward and
the SGD step on the parameters the optimizer holds, which are exactly the
target classifier's (99, 193-195). -/
def trainStep (ctx : Ctx) (a : Args) (sw : List (String × ℚ)) (b : Batch)
    (st : NetState) (m : TrainMeters) : Except PyError StepRes :=
  let st1 : NetState := { st with targetLayers := [], sourceLayers := [] }
  let y := ctx.logits st1.targetParams b.x
  let st2 : NetState :=
    { st1 with targetLayers := st1.targetLayers ++ ctx.acts st1.targetParams b.x }
  let ev1 : FwdEvent := ⟨.trainTarget, st1.targetLayers, true⟩
  let cls_loss := ctx.crossEntropy y b.label
  let loss_fc := reg_classifier st2.targetParams
  let fs : TorchVal × NetState × List FwdEvent :=
    match a.reg_type with
    | .l2_sp => (.tensor (reg_l2sp st2.targetParams sw), st2, [ev1])
    | .fea_map =>
        let st3 : NetState :=
          { st2 with sourceLayers := st2.sourceLayers ++ ctx.acts st2.sourceParams b.x }
        (.tensor (reg_fea_map st3.sourceLayers st3.targetLayers), st3,
          [ev1, ⟨.trainSource, st2.sourceLayers, true⟩])
    | _ => (.pyfloat (-10), st2, [ev1])
  let loss_feature := fs.1
  let st3 := fs.2.1
  let loss := cls_loss + a.alpha * loss_feature.toQ + a.beta * loss_fc
  let cls_acc := ctx.accuracy1 y b.label
  let m1 : TrainMeters := { m with losses_fc := m.losses_fc.update (loss_fc * a.beta) b.n }
  match loss_feature.item with
  | .error e => .error e
  | .ok lf =>
    let m2 : TrainMeters :=
      { m1 with losses_feature := m1.losses_feature.update (lf * a.alpha) b.n }
    let m3 : TrainMeters := { m2 with losses := m2.losses.update loss b.n }
    let m4 : TrainMeters := { m3 with cls_accs := m3.cls_accs.update cls_acc b.n }
    let st4 : NetState := { st3 with targetParams := ctx.sgd loss st3.targetParams }
    .ok { st := st4, meters := m4, events := fs.2.2, y := y, cls_loss := cls_loss,
          loss_fc := loss_fc, loss_feature := loss_feature, loss := loss }

/-- Modelled from the spec: `common.utils.data.ForeverDataIterator` (imported
at delta.py line 23; not under src).  Spec §4.3: "an unbounded restartable
cyclic iterator over the training set".  `data` is the shuffled epoch order
of the training loader, `idx` counts batches handed out so far. -/
structure ForeverDataIterator where
  data : List Batch
  idx : ℕ
deriving DecidableEq, Repr, Inhabited

/-- `next(train_iter)`: hand out the batch at the current cyclic position and
advance. -/
def ForeverDataIterator.next (it : ForeverDataIterator) : Batch × ForeverDataIterator :=
  (it.data.getD (it.idx % it.data.length) batchDefault, ⟨it.data, it.idx + 1⟩)

/-- Result of running the per-epoch training loop: final network state,
advanced iterator, the epoch's meters, the hooked-forward events, and the
batches pulled (in order). -/
structure EpochRes where
  st : NetState
  it : ForeverDataIterator
  meters : TrainMeters
  events : List FwdEvent
  pulled : List Batch
deriving DecidableEq, Repr, Inhabited

/-- The body of `train`'s loop `for i in range(args.iters_per_epoch)`
(delta.py line 160), run `k` times: pull the next batch from the cyclic
iterator (163) and execute one training iteration. -/
def trainSteps (ctx : Ctx) (a : Args) (sw : List (String × ℚ)) :
    ℕ → NetState → ForeverDataIterator → TrainMeters → Except PyError EpochRes
  | 0, st, it, m => .ok ⟨st, it, m, [], []⟩
  | k + 1, st, it, m =>
    match trainStep ctx a sw it.next.1 st m with
    | .error e => .error e
    | .ok r =>
      match trainSteps ctx a sw k r.st it.next.2 r.meters with
      | .error e => .error e
      | .ok er => .ok ⟨er.st, er.it, er.meters, r.events ++ er.events, it.next.1 :: er.pulled⟩

/-- `train` (delta.py lines 139-202): fresh meters, then exactly
`args.iters_per_epoch` iterations. -/
def trainEpoch (ctx : Ctx) (a : Args) (sw : List (String × ℚ))
    (st : NetState) (it : ForeverDataIterator) : Except PyError EpochRes :=
  trainSteps ctx a sw a.iters_per_epoch st it TrainMeters.empty

/-- The three value meters of `validate` (delta.py lines 207-209; the
wall-clock meter is not represented). -/
structure ValMeters where
  losses : AverageMeter
  top1 : AverageMeter
  top5 : AverageMeter
deriving DecidableEq, Repr, Inhabited

def ValMeters.empty : ValMeters :=
  ⟨AverageMeter.empty, AverageMeter.empty, AverageMeter.empty⟩

/-- Result of the evaluation loop body. -/
structure ValRes where
  st : NetState
  meters : ValMeters
  events : List FwdEvent
deriving DecidableEq, Repr, Inhabited

/-- One batch of the evaluation loop, delta.py lines 220-240: forward the
target network under `torch.no_grad()` (the hooks still fire and append to
`target_layers`), cross-entropy loss, then `target_layers.clear()` AFTER the
forward (line 227), accuracy, meter updates weighted by the batch size. -/
def validateBatch (ctx : Ctx) (b : Batch) (st : NetState) (m : ValMeters) :
    NetState × ValMeters × FwdEvent :=
  let output := ctx.logits st.targetParams b.x
  let st1 : NetState :=
    { st with targetLayers := st.targetLayers ++ ctx.acts st.targetParams b.x }
  let loss := ctx.crossEntropy output b.label
  let st2 : NetState := { st1 with targetLayers := [] }
  let acc1 := ctx.accuracy1 output b.label
  let acc5 := ctx.accuracy5 output b.label
  let m1 : ValMeters :=
    ⟨m.losses.update loss b.n, m.top1.update acc1 b.n, m.top5.update acc5 b.n⟩
  (st2, m1, ⟨.valTarget, st.targetLayers, false⟩)

/-- The evaluation loop `for i, (images, target) in enumerate(val_loader)`
over every batch of the evaluation set. -/
def validateBatches (ctx : Ctx) : List Batch → NetState → ValMeters → ValRes
  | [], st, m => ⟨st, m, []⟩
  | b :: bs, st, m =>
    let r1 := validateBatch ctx b st m
    let r2 := validateBatches ctx bs r1.1 r1.2.1
    ⟨r2.st, r2.meters, r1.2.2 :: r2.events⟩

/-- `validate` (delta.py lines 205-244): fresh meters, run over every batch,
return `top1.avg`. -/
def validate (ctx : Ctx) (bs : List Batch) (st : NetState) : ℚ × ValRes :=
  let r := validateBatches ctx bs st ValMeters.empty
  (r.meters.top1.avg, r)

/-- The checkpoint files and the best-accuracy tracker of `main`:
`latest`/`best` hold the persisted target state dicts (`none` = the file does
not exist), `best_acc1` the best validation accuracy seen so far. -/
structure CkptSt where
  latest : Option NetParams
  best : Option NetParams
  best_acc1 : ℚ
deriving DecidableEq, Repr, Inhabited

/-- The initial checkpoint state of a fresh training run: no files on disk,
`best_acc1 = 0.0` (delta.py line 113). -/
def CkptSt.init : CkptSt := ⟨none, none, 0⟩

/-- delta.py lines 124-127: save the `latest` checkpoint every epoch; copy it
to `best` only on `acc1 > best_acc1`; `best_acc1 = max(acc1, best_acc1)`. -/
def saveCheckpoint (acc1 : ℚ) (state_dict : NetParams) (cs : CkptSt) : CkptSt :=
  let cs1 : CkptSt := { cs with latest := some state_dict }
  let cs2 : CkptSt := if acc1 > cs1.best_acc1 then { cs1 with best := cs1.latest } else cs1
  { cs2 with best_acc1 := max acc1 cs2.best_acc1 }

/-- `torch.load` on a checkpoint path: a missing file raises
`FileNotFoundError`; there is no fallback. -/
def torchLoad : Option NetParams → Except PyError NetParams
  | none => .error .fileNotFound
  | some c => .ok c

/-- The per-run mutable state of `main`'s training phase: network state,
training iterator, the number of `lr_scheduler.step()` calls made so far,
and the checkpoint store. -/
structure RunState where
  st : NetState
  it : ForeverDataIterator
  schedulerSteps : ℕ
  ckpt : CkptSt
deriving DecidableEq, Repr, Inhabited

/-- Observation of one epoch of `main`'s loop. -/
structure EpochOut where
  rs : RunState
  pulled : List Batch
  trainEvents : List FwdEvent
  valEvents : List FwdEvent
  acc1 : ℚ
deriving DecidableEq, Repr, Inhabited

/-- One iteration of `main`'s epoch loop (delta.py lines 114-127): train for
one epoch (116-117), `lr_scheduler.step()` (118), validate (121), save the
checkpoints and update `best_acc1` (124-127). -/
def mainEpoch (ctx : Ctx) (a : Args) (sw : List (String × ℚ))
    (vbs : List Batch) (rs : RunState) : Except PyError EpochOut :=
  match trainEpoch ctx a sw rs.st rs.it with
  | .error e => .error e
  | .ok er =>
    let v := validate ctx vbs er.st
    .ok { rs := { st := v.2.st, it := er.it, schedulerSteps := rs.schedulerSteps + 1,
                  ckpt := saveCheckpoint v.1 v.2.st.targetParams rs.ckpt },
          pulled := er.pulled, trainEvents := er.events, valEvents := v.2.events,
          acc1 := v.1 }

/-- `for epoch in range(args.epochs)` (delta.py line 114). -/
def mainEpochs (ctx : Ctx) (a : Args) (sw : List (String × ℚ)) (vbs : List Batch) :
    ℕ → RunState → Except PyError RunState
  | 0, rs => .ok rs
  | k + 1, rs =>
    match mainEpoch ctx a sw vbs rs with
    | .error e => .error e
    | .ok eo => mainEpochs ctx a sw vbs k eo.rs

/-- The phase dispatch of `main` (delta.py lines 102-134).  When the phase is
not `train`, the best checkpoint is loaded into the classifier (104-105, a
missing file is fatal) and for phase `test` a single evaluation pass is run
and its accuracy returned (107-110) — no training occurs.  For phase `train`
the epoch loop runs, then the best checkpoint is loaded (132, again fatal if
missing) and a final evaluation pass on the test loader (which delta.py line
68 aliases to the validation loader) is run (133).  The result is the last
reported accuracy, the final run state, and the hooked-forward events of the
final evaluation pass. -/
def mainRun (ctx : Ctx) (a : Args) (sw : List (String × ℚ))
    (bestFile : Option NetParams) (vbs : List Batch) (rs : RunState) :
    Except PyError (ℚ × RunState × List FwdEvent) :=
  match a.phase with
  | .test =>
    match torchLoad bestFile with
    | .error e => .error e
    | .ok sd =>
      let v := validate ctx vbs { rs.st with targetParams := sd }
      .ok (v.1, { rs with st := v.2.st }, v.2.events)
  | .train =>
    match mainEpochs ctx a sw vbs a.epochs rs with
    | .error e => .error e
    | .ok rs1 =>
      match torchLoad rs1.ckpt.best with
      | .error e => .error e
      | .ok sd =>
        let v := validate ctx vbs { rs1.st with targetParams := sd }
        .ok (v.1, { rs1 with st := v.2.st }, v.2.events)

/-! Concrete toy instances used to evaluate the embedded code on closed
inputs. -/

/-- A toy context: logits, losses and accuracies are 0, every hooked forward
captures the single activation `[1]`, the SGD update is the identity. -/
def ctx0 : Ctx :=
  { logits := fun _ _ => 0,
    acts := fun _ _ => [1],
    crossEntropy := fun _ _ => 0,
    accuracy1 := fun _ _ => 0,
    accuracy5 := fun _ _ => 0,
    sgd := fun _ p => p }

/-- Toy target classifier: one backbone weight, one head weight. -/
def params0 : NetParams := ⟨[⟨"conv1.weight", 1, true⟩], [⟨"head.weight", 2, true⟩]⟩

/-- Toy frozen source classifier (its own pretrained head). -/
def source0 : NetParams := ⟨[⟨"conv1.weight", 1, false⟩], [⟨"fc.weight", 3, false⟩]⟩

def sw0 : List (String × ℚ) := sourceWeightSnapshot source0

def st0 : NetState := ⟨params0, source0, [], []⟩

def b0 : Batch := ⟨1, 0, 2⟩

def args0 : Args := ⟨0, 0, .l2_sp, 1, 1, .train⟩

def it0 : ForeverDataIterator := ⟨[b0], 0⟩

def rs0 : RunState := ⟨st0, it0, 0, CkptSt.init⟩

/-- Toy arguments with a nonzero beta weight (strategy still `l2_sp`). -/
def args3 : Args := ⟨0, 1, .l2_sp, 1, 1, .train⟩

/-- Toy arguments for a `test`-phase run. -/
def argsTest : Args := ⟨0, 0, .l2_sp, 1, 1, .test⟩

/-- The result of the toy training iteration under `args0`. -/
def r1 : StepRes := (trainStep ctx0 args0 sw0 b0 st0 TrainMeters.empty).toOption.getD default

/-- The result of the toy training iteration under `args3`. -/
def r3 : StepRes := (trainStep ctx0 args3 sw0 b0 st0 TrainMeters.empty).toOption.getD default

/-- The observation of one toy epoch (one training step, then the evaluation
loop over the single batch `b0`). -/
def eo0 : EpochOut := (mainEpoch ctx0 args0 sw0 [b0] rs0).toOption.getD default

/-! Helper lemmas about one training iteration. -/

/-- Characterization of a successful training iteration: how the total loss
is composed, what each summand is, how the parameters move, which strategies
can reach the optimizer step at all, and that both capture buffers are empty
when the step's forwards begin. -/
theorem trainStep_spec (ctx : Ctx) (a : Args) (sw : List (String × ℚ)) (b : Batch)
    (st : NetState) (m : TrainMeters) (r : StepRes)
    (h : trainStep ctx a sw b st m = .ok r) :
    r.loss = r.cls_loss + a.alpha * r.loss_feature.toQ + a.beta * r.loss_fc
    ∧ r.cls_loss = ctx.crossEntropy (ctx.logits st.targetParams b.x) b.label
    ∧ r.loss_fc = reg_classifier st.targetParams
    ∧ r.st.sourceParams = st.sourceParams
    ∧ r.st.targetParams = ctx.sgd r.loss st.targetParams
    ∧ (a.reg_type = .l2_sp → r.loss_feature = .tensor (reg_l2sp st.targetParams sw))
    ∧ (a.reg_type = .fea_map →
        r.loss_feature =
          .tensor (reg_fea_map (ctx.acts st.sourceParams b.x) (ctx.acts st.targetParams b.x)))
    ∧ (a.reg_type = .l2_sp ∨ a.reg_type = .fea_map)
    ∧ (∀ ev ∈ r.events, ev.preBuffer = []) := by
  cases ha : a.reg_type <;> simp [trainStep, ha, TorchVal.item] at h
  · subst h
    simp [TorchVal.toQ]
  · subst h
    simp [TorchVal.toQ]

/-- With the default `l2_sp` strategy a training iteration never raises. -/
theorem trainStep_l2sp_ok (ctx : Ctx) (a : Args) (sw : List (String × ℚ)) (b : Batch)
    (st : NetState) (m : TrainMeters) (h : a.reg_type = .l2_sp) :
    ∃ r, trainStep ctx a sw b st m = .ok r := by
  simp [trainStep, h, TorchVal.item]

/-! Helper lemmas about the evaluation loop. -/

/-- One evaluation batch leaves every parameter untouched and ends with the
target capture buffer cleared. -/
theorem validateBatch_st (ctx : Ctx) (b : Batch) (st : NetState) (m : ValMeters) :
    (validateBatch ctx b st m).1 = { st with targetLayers := [] } := rfl

/-- The evaluation loop mutates no parameter and never touches the source
buffer. -/
theorem validateBatches_params (ctx : Ctx) (bs : List Batch) (st : NetState) (m : ValMeters) :
    (validateBatches ctx bs st m).st.targetParams = st.targetParams
    ∧ (validateBatches ctx bs st m).st.sourceParams = st.sourceParams
    ∧ (validateBatches ctx bs st m).st.sourceLayers = st.sourceLayers := by
  induction bs generalizing st m with
  | nil => exact ⟨rfl, rfl, rfl⟩
  | cons b bs ih =>
    simpa [validateBatches, validateBatch] using ih _ _

/-- The top-1 meter after the evaluation loop: the weighted sum and the
weight total both grow by exactly the per-batch contributions, computed from
the unchanged parameters. -/
theorem validateBatches_top1 (ctx : Ctx) (bs : List Batch) (st : NetState) (m : ValMeters) :
    (validateBatches ctx bs st m).meters.top1.sum
      = m.top1.sum
        + (bs.map (fun b => ctx.accuracy1 (ctx.logits st.targetParams b.x) b.label * b.n)).sum
    ∧ (validateBatches ctx bs st m).meters.top1.count
      = m.top1.count + (bs.map (fun b => b.n)).sum := by
  induction bs generalizing st m with
  | nil => simp [validateBatches]
  | cons b bs ih =>
    have h := ih ({ st with targetLayers := [] })
      ⟨m.losses.update (ctx.crossEntropy (ctx.logits st.targetParams b.x) b.label) b.n,
       m.top1.update (ctx.accuracy1 (ctx.logits st.targetParams b.x) b.label) b.n,
       m.top5.update (ctx.accuracy5 (ctx.logits st.targetParams b.x) b.label) b.n⟩
    simp only [validateBatches, validateBatch] at h ⊢
    constructor
    · rw [h.1]
      simp [AverageMeter.update]
      ring
    · rw [h.2]
      simp [AverageMeter.update]
      ring

/-- Every event of the evaluation loop is a target-network forward with
gradient tracking disabled, and there is exactly one per batch. -/
theorem validateBatches_events (ctx : Ctx) (bs : List Batch) (st : NetState) (m : ValMeters) :
    (validateBatches ctx bs st m).events.length = bs.length
    ∧ ∀ ev ∈ (validateBatches ctx bs st m).events,
        ev.kind = .valTarget ∧ ev.gradEnabled = false := by
  induction bs generalizing st m with
  | nil => simp [validateBatches]
  | cons b bs ih =>
    have h := ih ({ st with targetLayers := [] })
      ⟨m.losses.update (ctx.crossEntropy (ctx.logits st.targetParams b.x) b.label) b.n,
       m.top1.update (ctx.accuracy1 (ctx.logits st.targetParams b.x) b.label) b.n,
       m.top5.update (ctx.accuracy5 (ctx.logits st.targetParams b.x) b.label) b.n⟩
    simp only [validateBatches, validateBatch] at h ⊢
    refine ⟨by simp [h.1], ?_⟩
    intro ev hev
    rcases List.mem_cons.mp hev with rfl | hev
    · exact ⟨rfl, rfl⟩
    · exact h.2 ev hev

/-- If the evaluation loop starts with an empty target buffer, every one of
its forwards begins with an empty buffer. -/
theorem validateBatches_events_pre_of_empty (ctx : Ctx) (bs : List Batch)
    (st : NetState) (m : ValMeters) (hst : st.targetLayers = []) :
    ∀ ev ∈ (validateBatches ctx bs st m).events, ev.preBuffer = [] := by
  induction bs generalizing st m with
  | nil => simp [validateBatches]
  | cons b bs ih =>
    intro ev hev
    simp only [validateBatches, validateBatch, List.mem_cons] at hev
    rcases hev with rfl | hev
    · exact hst
    · exact ih _ _ rfl ev hev

/-- Every evaluation forward after the first begins with an empty buffer —
each batch clears the buffer after its own forward. -/
theorem validateBatches_events_tail (ctx : Ctx) (bs : List Batch)
    (st : NetState) (m : ValMeters) :
    ∀ ev ∈ (validateBatches ctx bs st m).events.tail, ev.preBuffer = [] := by
  cases bs with
  | nil => simp [validateBatches]
  | cons b bs =>
    intro ev hev
    simp only [validateBatches, validateBatch, List.tail_cons] at hev
    exact validateBatches_events_pre_of_empty ctx bs _ _ rfl ev hev

/-! Helper lemmas about the per-epoch training loop. -/

/-- The per-epoch loop never writes the frozen source parameters, and every
training forward begins with empty capture buffers. -/
theorem trainSteps_frame (ctx : Ctx) (a : Args) (sw : List (String × ℚ)) (k : ℕ)
    (st : NetState) (it : ForeverDataIterator) (m : TrainMeters) (er : EpochRes)
    (h : trainSteps ctx a sw k st it m = .ok er) :
    er.st.sourceParams = st.sourceParams
    ∧ ∀ ev ∈ er.events, ev.preBuffer = [] := by
  induction k generalizing st it m er with
  | zero =>
    simp only [trainSteps] at h
    cases h
    simp
  | succ k ih =>
    simp only [trainSteps] at h
    cases h1 : trainStep ctx a sw it.next.1 st m with
    | error e => simp only [h1] at h; exact absurd h (by simp)
    | ok r =>
      simp only [h1] at h
      cases h2 : trainSteps ctx a sw k r.st it.next.2 r.meters with
      | error e => simp only [h2] at h; exact absurd h (by simp)
      | ok er2 =>
        simp only [h2] at h
        cases h
        have hs := trainStep_spec ctx a sw it.next.1 st m r h1
        have hrec := ih r.st it.next.2 r.meters er2 h2
        refine ⟨by rw [hrec.1, hs.2.2.2.1], ?_⟩
        intro ev hev
        rcases List.mem_append.mp hev with hev | hev
        · exact hs.2.2.2.2.2.2.2.2 ev hev
        · exact hrec.2 ev hev

/-- The per-epoch loop pulls exactly `k` batches, cyclically, from the
training iterator, advancing its position by `k`; the underlying dataset is
unchanged. -/
theorem trainSteps_pulled (ctx : Ctx) (a : Args) (sw : List (String × ℚ)) (k : ℕ)
    (st : NetState) (it : ForeverDataIterator) (m : TrainMeters) (er : EpochRes)
    (h : trainSteps ctx a sw k st it m = .ok er) :
    er.pulled
      = (List.range k).map (fun i => it.data.getD ((it.idx + i) % it.data.length) batchDefault)
    ∧ er.it.idx = it.idx + k
    ∧ er.it.data = it.data := by
  induction k generalizing st it m er with
  | zero =>
    simp only [trainSteps] at h
    cases h
    simp
  | succ k ih =>
    simp only [trainSteps] at h
    cases h1 : trainStep ctx a sw it.next.1 st m with
    | error e => simp only [h1] at h; exact absurd h (by simp)
    | ok r =>
      simp only [h1] at h
      cases h2 : trainSteps ctx a sw k r.st it.next.2 r.meters with
      | error e => simp only [h2] at h; exact absurd h (by simp)
      | ok er2 =>
        simp only [h2] at h
        cases h
        have hrec := ih r.st it.next.2 r.meters er2 h2
        simp only [ForeverDataIterator.next] at hrec ⊢
        refine ⟨?_, by omega, hrec.2.2⟩
        rw [List.range_succ_eq_map, List.map_cons, List.map_map, hrec.1]
        refine congrArg₂ List.cons (by simp) (List.map_congr_left ?_)
        intro i _
        show it.data.getD ((it.idx + 1 + i) % it.data.length) batchDefault
            = it.data.getD ((it.idx + (i + 1)) % it.data.length) batchDefault
        have hadd : it.idx + 1 + i = it.idx + (i + 1) := by omega
        rw [hadd]

/-- With the default `l2_sp` strategy the per-epoch loop never raises. -/
theorem trainSteps_l2sp_ok (ctx : Ctx) (a : Args) (sw : List (String × ℚ)) (k : ℕ)
    (st : NetState) (it : ForeverDataIterator) (m : TrainMeters)
    (h : a.reg_type = .l2_sp) :
    ∃ er, trainSteps ctx a sw k st it m = .ok er := by
  induction k generalizing st it m with
  | zero => exact ⟨_, rfl⟩
  | succ k ih =>
    obtain ⟨r, hr⟩ := trainStep_l2sp_ok ctx a sw it.next.1 st m h
    obtain ⟨er, her⟩ := ih r.st it.next.2 r.meters
    refine ⟨⟨er.st, er.it, er.meters, r.events ++ er.events, it.next.1 :: er.pulled⟩, ?_⟩
    simp only [trainSteps, hr, her]

/-! Helper lemmas about checkpoint selection and the epoch loop of `main`. -/

/-- If the accuracy returned by every `accuracy` call is 0 then the
evaluation pass reports accuracy 0. -/
theorem validate_acc_zero (ctx : Ctx) (bs : List Batch) (st : NetState)
    (hacc : ∀ y l, ctx.accuracy1 y l = 0) :
    (validate ctx bs st).1 = 0 := by
  have h := validateBatches_top1 ctx bs st ValMeters.empty
  have hsum : (validateBatches ctx bs st ValMeters.empty).meters.top1.sum = 0 := by
    rw [h.1]
    have hz : (bs.map
        (fun b => ctx.accuracy1 (ctx.logits st.targetParams b.x) b.label * b.n)).sum = 0 := by
      apply List.sum_eq_zero
      intro x hx
      obtain ⟨b, hb, rfl⟩ := List.mem_map.mp hx
      rw [hacc]
      exact zero_mul _
    rw [hz]
    simp [ValMeters.empty, AverageMeter.empty]
  simp only [validate, AverageMeter.avg, hsum, zero_div]

/-- Without a strict improvement the `best` checkpoint file and the tracked
best accuracy are unchanged (the `latest` file is still overwritten). -/
theorem saveCheckpoint_not_improve (acc1 : ℚ) (sd : NetParams) (cs : CkptSt)
    (h : ¬ acc1 > cs.best_acc1) :
    (saveCheckpoint acc1 sd cs).best = cs.best
    ∧ (saveCheckpoint acc1 sd cs).best_acc1 = cs.best_acc1 := by
  refine ⟨by simp [saveCheckpoint, h], ?_⟩
  simp [saveCheckpoint, h]
  exact not_lt.mp h

/-- Under the default strategy, if every reported accuracy is 0 then every
epoch completes, the scheduler advances once per epoch, and the `best`
checkpoint file is never created and the tracked best accuracy never
leaves 0. -/
theorem mainEpochs_zero_acc (ctx : Ctx) (a : Args) (sw : List (String × ℚ))
    (vbs : List Batch) (k : ℕ) (rs : RunState)
    (hreg : a.reg_type = .l2_sp) (hacc : ∀ y l, ctx.accuracy1 y l = 0)
    (hbest : rs.ckpt.best = none) (hba : rs.ckpt.best_acc1 = 0) :
    ∃ rs', mainEpochs ctx a sw vbs k rs = .ok rs'
      ∧ rs'.ckpt.best = none ∧ rs'.ckpt.best_acc1 = 0
      ∧ rs'.schedulerSteps = rs.schedulerSteps + k := by
  induction k generalizing rs with
  | zero => exact ⟨rs, rfl, hbest, hba, rfl⟩
  | succ k ih =>
    obtain ⟨er, her⟩ :=
      trainSteps_l2sp_ok ctx a sw a.iters_per_epoch rs.st rs.it TrainMeters.empty hreg
    have hval : (validate ctx vbs er.st).1 = 0 := validate_acc_zero ctx vbs er.st hacc
    have hnot : ¬ (validate ctx vbs er.st).1 > rs.ckpt.best_acc1 := by
      rw [hval, hba]
      exact lt_irrefl 0
    have hsc := saveCheckpoint_not_improve (validate ctx vbs er.st).1
      (validate ctx vbs er.st).2.st.targetParams rs.ckpt hnot
    have hme : mainEpoch ctx a sw vbs rs = .ok
        { rs := { st := (validate ctx vbs er.st).2.st, it := er.it,
                  schedulerSteps := rs.schedulerSteps + 1,
                  ckpt := saveCheckpoint (validate ctx vbs er.st).1
                            (validate ctx vbs er.st).2.st.targetParams rs.ckpt },
          pulled := er.pulled, trainEvents := er.events,
          valEvents := (validate ctx vbs er.st).2.events,
          acc1 := (validate ctx vbs er.st).1 } := by
      simp only [mainEpoch, trainEpoch, her]
    obtain ⟨rs', hrs', hb', hba', hs'⟩ := ih
      { st := (validate ctx vbs er.st).2.st, it := er.it,
        schedulerSteps := rs.schedulerSteps + 1,
        ckpt := saveCheckpoint (validate ctx vbs er.st).1
                  (validate ctx vbs er.st).2.st.targetParams rs.ckpt }
      (by rw [hsc.1]; exact hbest) (by rw [hsc.2]; exact hba)
    refine ⟨rs', ?_, hb', hba',
      by rw [hs']; show rs.schedulerSteps + 1 + k = rs.schedulerSteps + (k + 1); omega⟩
    simp only [mainEpochs, hme]
    exact hrs'

/-! Claim theorems. -/

/-- Claim C1: for every training step that reaches the backward pass, and all
non-negative hyperparameters alpha and beta, the total loss handed to
`loss.backward()` (and hence to the optimizer update) equals
classification_loss + alpha * feature_penalty + beta * parameter_penalty,
where the classification loss is the cross-entropy of the target network's
logits against the labels; with (alpha, beta) = (0, 0) the composed loss
reduces to the pure classification loss. -/
theorem C1_total_loss_composition (ctx : Ctx) (a : Args) (sw : List (String × ℚ))
    (b : Batch) (st : NetState) (m : TrainMeters) (r : StepRes)
    (halpha : 0 ≤ a.alpha) (hbeta : 0 ≤ a.beta)
    (h : trainStep ctx a sw b st m = .ok r) :
    r.loss = r.cls_loss + a.alpha * r.loss_feature.toQ + a.beta * r.loss_fc
    ∧ r.cls_loss = ctx.crossEntropy (ctx.logits st.targetParams b.x) b.label
    ∧ r.st.targetParams = ctx.sgd r.loss st.targetParams
    ∧ (a.alpha = 0 → a.beta = 0 → r.loss = r.cls_loss) := by
  have hs := trainStep_spec ctx a sw b st m r h
  refine ⟨hs.1, hs.2.1, hs.2.2.2.2.1, ?_⟩
  intro h0 h1
  rw [hs.1, h0, h1]
  ring

/-- Witness for C1 at the toy instance (alpha = beta = 0, strategy l2_sp). -/
theorem C1_witness :
    r1.loss = r1.cls_loss + args0.alpha * r1.loss_feature.toQ + args0.beta * r1.loss_fc
    ∧ r1.cls_loss = ctx0.crossEntropy (ctx0.logits st0.targetParams b0.x) b0.label
    ∧ r1.st.targetParams = ctx0.sgd r1.loss st0.targetParams
    ∧ (args0.alpha = 0 → args0.beta = 0 → r1.loss = r1.cls_loss) :=
  C1_total_loss_composition ctx0 args0 sw0 b0 st0 TrainMeters.empty r1
    (by norm_num [args0]) (by norm_num [args0]) rfl

/-- Claim C2 (refuted — code bug): selecting the `l2` or `att_fea_map`
strategy makes every training step raise `AttributeError`: `loss_feature`
keeps the plain Python float `-10.0` (delta.py line 176, never reassigned by
the `l2_sp`/`fea_map`-only dispatch of lines 178-181) and the metric update
at line 188 calls `.item()` on it, so the step dies before the backward pass
instead of producing a finite differentiable penalty. -/
theorem C2_l2_and_att_fea_map_step_raises :
    trainStep ctx0 { args0 with reg_type := .l2 } sw0 b0 st0 TrainMeters.empty
      = .error .attributeError
    ∧ trainStep ctx0 { args0 with reg_type := .att_fea_map } sw0 b0 st0 TrainMeters.empty
      = .error .attributeError :=
  ⟨rfl, rfl⟩

/-- Claim C3 counterexample: with the `l2_sp` strategy selected and beta = 1,
the classifier-head l2 penalty still contributes to the total loss: the
backward loss is 4 (the squared head weight) while the classification loss
plus the strategy-selected alpha term is 0.  So the head-norm penalty does
not contribute "only when the l2 strategy is selected". -/
theorem C3_counterexample :
    trainStep ctx0 args3 sw0 b0 st0 TrainMeters.empty = .ok r3
    ∧ args3.reg_type = .l2_sp
    ∧ r3.loss = 4
    ∧ r3.cls_loss + args3.alpha * r3.loss_feature.toQ = 0
    ∧ (4 : ℚ) ≠ 0 := by
  refine ⟨rfl, rfl, ?_, ?_, by norm_num⟩
  · norm_num [r3, trainStep, ctx0, args3, sw0, b0, st0, params0, source0,
      sourceWeightSnapshot, reg_l2sp, reg_classifier, findWeight, NetParams.allParams,
      TorchVal.toQ, TorchVal.item, Except.toOption]
  · norm_num [r3, trainStep, ctx0, args3, sw0, b0, st0, params0, source0,
      sourceWeightSnapshot, reg_l2sp, reg_classifier, findWeight, NetParams.allParams,
      TorchVal.toQ, TorchVal.item, Except.toOption]

/-- Claim C3 (amended): the strategy selector chooses, mutually exclusively,
only the alpha-weighted feature term of the loss (`l2_sp` yields the
parameter-distance penalty, `fea_map` the feature-map penalty, and no other
choice completes a step); the beta-weighted classifier head-norm penalty
`reg_classifier` is computed and added to the total loss at every step
regardless of the selected strategy. -/
theorem C3_amended_strategy_dispatch (ctx : Ctx) (a : Args) (sw : List (String × ℚ))
    (b : Batch) (st : NetState) (m : TrainMeters) (r : StepRes)
    (h : trainStep ctx a sw b st m = .ok r) :
    r.loss = r.cls_loss + a.alpha * r.loss_feature.toQ
      + a.beta * reg_classifier st.targetParams
    ∧ (a.reg_type = .l2_sp → r.loss_feature = .tensor (reg_l2sp st.targetParams sw))
    ∧ (a.reg_type = .fea_map → r.loss_feature
        = .tensor (reg_fea_map (ctx.acts st.sourceParams b.x) (ctx.acts st.targetParams b.x)))
    ∧ (a.reg_type = .l2_sp ∨ a.reg_type = .fea_map)
    ∧ ¬ (a.reg_type = .l2_sp ∧ a.reg_type = .fea_map) := by
  have hs := trainStep_spec ctx a sw b st m r h
  refine ⟨by rw [hs.1, hs.2.2.1], hs.2.2.2.2.2.1, hs.2.2.2.2.2.2.1,
    hs.2.2.2.2.2.2.2.1, ?_⟩
  rintro ⟨h1, h2⟩
  rw [h1] at h2
  cases h2

/-- Witness for the amended C3 at the toy instance. -/
theorem C3_witness :
    r1.loss = r1.cls_loss + args0.alpha * r1.loss_feature.toQ
      + args0.beta * reg_classifier st0.targetParams
    ∧ (args0.reg_type = .l2_sp ∨ args0.reg_type = .fea_map) :=
  ⟨(C3_amended_strategy_dispatch ctx0 args0 sw0 b0 st0 TrainMeters.empty r1 rfl).1,
   (C3_amended_strategy_dispatch ctx0 args0 sw0 b0 st0 TrainMeters.empty r1 rfl).2.2.2.1⟩

/-- Claim C4: the best checkpoint is replaced exactly when the epoch's
validation accuracy strictly exceeds the best seen so far; otherwise — in
particular on a tie — the earlier best checkpoint file is kept. -/
theorem C4_best_checkpoint_strict (acc1 : ℚ) (sd : NetParams) (cs : CkptSt) :
    (acc1 > cs.best_acc1 → (saveCheckpoint acc1 sd cs).best = some sd)
    ∧ (¬ acc1 > cs.best_acc1 → (saveCheckpoint acc1 sd cs).best = cs.best)
    ∧ (acc1 = cs.best_acc1 → (saveCheckpoint acc1 sd cs).best = cs.best) := by
  refine ⟨fun h => by simp [saveCheckpoint, h], fun h => by simp [saveCheckpoint, h],
    fun h => ?_⟩
  have hn : ¬ acc1 > cs.best_acc1 := by rw [h]; exact lt_irrefl _
  simp [saveCheckpoint, hn]

/-- Witness for C4: a strict improvement replaces the best checkpoint, a
tie keeps it. -/
theorem C4_witness :
    (saveCheckpoint 1 params0 CkptSt.init).best = some params0
    ∧ (saveCheckpoint 0 params0 CkptSt.init).best = CkptSt.init.best :=
  ⟨(C4_best_checkpoint_strict 1 params0 CkptSt.init).1 (by norm_num [CkptSt.init]),
   (C4_best_checkpoint_strict 0 params0 CkptSt.init).2.2 rfl⟩

/-- Claim C5 counterexample: one epoch (one training step, default `l2_sp`
strategy) followed by the evaluation loop over one batch; the evaluation
forward begins with the stale buffer `[1]` left by the training forward, not
with an empty buffer, refuting "every forward pass that repopulates a
capture buffer begins with that buffer empty". -/
theorem C5_counterexample :
    mainEpoch ctx0 args0 sw0 [b0] rs0 = .ok eo0
    ∧ eo0.valEvents.map FwdEvent.preBuffer = [[1]]
    ∧ ([1] : List ℚ) ≠ [] :=
  ⟨rfl, rfl, by simp⟩

/-- Claim C5 (amended): every training-step forward (target forward, and the
source forward of the `fea_map` branch) begins with an empty capture buffer,
since the step clears both buffers first; in the evaluation loop the buffer
is cleared only after each batch's forward, so every evaluation forward
after the first begins with an empty buffer, while the first may begin with
stale entries left by the preceding forward pass (which the evaluation loop
never reads). -/
theorem C5_amended_buffer_discipline (ctx : Ctx) (a : Args) (sw : List (String × ℚ))
    (vbs : List Batch) (rs : RunState) (eo : EpochOut)
    (h : mainEpoch ctx a sw vbs rs = .ok eo) :
    (∀ ev ∈ eo.trainEvents, ev.preBuffer = [])
    ∧ (∀ ev ∈ eo.valEvents.tail, ev.preBuffer = []) := by
  cases h1 : trainEpoch ctx a sw rs.st rs.it with
  | error e => simp only [mainEpoch, h1] at h; exact absurd h (by simp)
  | ok er =>
    simp only [mainEpoch, h1] at h
    cases h
    exact ⟨(trainSteps_frame ctx a sw a.iters_per_epoch rs.st rs.it TrainMeters.empty er h1).2,
      validateBatches_events_tail ctx vbs er.st ValMeters.empty⟩

/-- Witness for the amended C5 at the toy epoch. -/
theorem C5_witness :
    (∀ ev ∈ eo0.trainEvents, ev.preBuffer = [])
    ∧ (∀ ev ∈ eo0.valEvents.tail, ev.preBuffer = []) :=
  C5_amended_buffer_discipline ctx0 args0 sw0 [b0] rs0 eo0 rfl

/-- Claim C6: after initialization every parameter of the frozen source
classifier has gradient tracking disabled (delta.py lines 79-80); the SGD
update — built from the target classifier's parameters only (line 99) —
touches only the target parameters, and the source parameters (values and
flags alike) are unchanged by every training step, by the evaluation loop,
and by every full epoch. -/
theorem C6_source_frozen_unchanged (s : NetParams) (ctx : Ctx) (a : Args)
    (sw : List (String × ℚ)) (b : Batch) (st : NetState) (m : TrainMeters)
    (r : StepRes) (bs : List Batch) (vm : ValMeters) (vbs : List Batch)
    (rs : RunState) (eo : EpochOut) :
    (∀ p ∈ (freezeNet s).allParams, p.requires_grad = false)
    ∧ (trainStep ctx a sw b st m = .ok r → r.st.sourceParams = st.sourceParams)
    ∧ (validateBatches ctx bs st vm).st.sourceParams = st.sourceParams
    ∧ (mainEpoch ctx a sw vbs rs = .ok eo → eo.rs.st.sourceParams = rs.st.sourceParams) := by
  refine ⟨?_, fun h => (trainStep_spec ctx a sw b st m r h).2.2.2.1,
    (validateBatches_params ctx bs st vm).2.1, fun h => ?_⟩
  · intro p hp
    simp only [freezeNet, NetParams.allParams, List.mem_append, List.mem_map] at hp
    rcases hp with ⟨q, _, rfl⟩ | ⟨q, _, rfl⟩ <;> rfl
  · cases h1 : trainEpoch ctx a sw rs.st rs.it with
    | error e => simp only [mainEpoch, h1] at h; exact absurd h (by simp)
    | ok er =>
      simp only [mainEpoch, h1] at h
      cases h
      show (validateBatches ctx vbs er.st ValMeters.empty).st.sourceParams
        = rs.st.sourceParams
      rw [(validateBatches_params ctx vbs er.st ValMeters.empty).2.1]
      exact (trainSteps_frame ctx a sw a.iters_per_epoch rs.st rs.it
        TrainMeters.empty er h1).1

/-- Witness for C6 at the toy instances. -/
theorem C6_witness :
    (∀ p ∈ (freezeNet source0).allParams, p.requires_grad = false)
    ∧ r1.st.sourceParams = st0.sourceParams
    ∧ eo0.rs.st.sourceParams = rs0.st.sourceParams :=
  ⟨(C6_source_frozen_unchanged source0 ctx0 args0 sw0 b0 st0 TrainMeters.empty r1 []
      ValMeters.empty [b0] rs0 eo0).1,
   (C6_source_frozen_unchanged source0 ctx0 args0 sw0 b0 st0 TrainMeters.empty r1 []
      ValMeters.empty [b0] rs0 eo0).2.1 rfl,
   (C6_source_frozen_unchanged source0 ctx0 args0 sw0 b0 st0 TrainMeters.empty r1 []
      ValMeters.empty [b0] rs0 eo0).2.2.2 rfl⟩

/-- Claim C7: with phase `test` the driver loads the persisted best
checkpoint into the target network — a missing file is fatal
(`FileNotFoundError`), with no fallback to the random initialization — runs
the evaluation loop exactly once over the test batches (one no-grad
evaluation forward per batch and nothing else), reports the resulting
accuracy, and performs no training: the iterator, scheduler count and
checkpoint store come back unchanged. -/
theorem C7_test_phase (ctx : Ctx) (a : Args) (sw : List (String × ℚ))
    (vbs : List Batch) (rs : RunState) (h : a.phase = .test) :
    mainRun ctx a sw none vbs rs = .error .fileNotFound
    ∧ ∀ c : NetParams,
        mainRun ctx a sw (some c) vbs rs =
          .ok ((validate ctx vbs { rs.st with targetParams := c }).1,
               { rs with st := (validate ctx vbs { rs.st with targetParams := c }).2.st },
               (validate ctx vbs { rs.st with targetParams := c }).2.events)
        ∧ (validate ctx vbs { rs.st with targetParams := c }).2.st.targetParams = c
        ∧ (validate ctx vbs { rs.st with targetParams := c }).2.events.length = vbs.length
        ∧ ∀ ev ∈ (validate ctx vbs { rs.st with targetParams := c }).2.events,
            ev.kind = .valTarget ∧ ev.gradEnabled = false := by
  constructor
  · simp [mainRun, h, torchLoad]
  · intro c
    refine ⟨by simp [mainRun, h, torchLoad], ?_, ?_, ?_⟩
    · exact (validateBatches_params ctx vbs _ _).1
    · exact (validateBatches_events ctx vbs _ _).1
    · exact (validateBatches_events ctx vbs _ _).2

/-- Witness for C7 at the toy instance. -/
theorem C7_witness :
    mainRun ctx0 argsTest sw0 none [b0] rs0 = .error .fileNotFound
    ∧ mainRun ctx0 argsTest sw0 (some params0) [b0] rs0 =
        .ok ((validate ctx0 [b0] { rs0.st with targetParams := params0 }).1,
             { rs0 with st := (validate ctx0 [b0] { rs0.st with targetParams := params0 }).2.st },
             (validate ctx0 [b0] { rs0.st with targetParams := params0 }).2.events) :=
  ⟨(C7_test_phase ctx0 argsTest sw0 [b0] rs0 rfl).1,
   ((C7_test_phase ctx0 argsTest sw0 [b0] rs0 rfl).2 params0).1⟩

/-- Claim C8: the evaluation loop runs the target network over every batch
of the evaluation set (exactly one recorded forward per batch) with gradient
tracking disabled, mutates no parameter of the target or source network, and
returns the sample-weighted mean of the per-batch top-1 accuracies. -/
theorem C8_validate_spec (ctx : Ctx) (bs : List Batch) (st : NetState) :
    (validate ctx bs st).2.st.targetParams = st.targetParams
    ∧ (validate ctx bs st).2.st.sourceParams = st.sourceParams
    ∧ (validate ctx bs st).2.events.length = bs.length
    ∧ (∀ ev ∈ (validate ctx bs st).2.events, ev.kind = .valTarget ∧ ev.gradEnabled = false)
    ∧ (validate ctx bs st).1 =
        (bs.map (fun b => ctx.accuracy1 (ctx.logits st.targetParams b.x) b.label * b.n)).sum
          / (bs.map (fun b => b.n)).sum := by
  refine ⟨(validateBatches_params ctx bs st _).1, (validateBatches_params ctx bs st _).2.1,
    (validateBatches_events ctx bs st _).1, (validateBatches_events ctx bs st _).2, ?_⟩
  have h := validateBatches_top1 ctx bs st ValMeters.empty
  show (validateBatches ctx bs st ValMeters.empty).meters.top1.avg = _
  rw [AverageMeter.avg, h.1, h.2]
  simp [ValMeters.empty, AverageMeter.empty]

/-- Claim C9: every completed epoch executes exactly `iters_per_epoch`
training steps — independent of the dataset size — pulling its batches
cyclically from the restartable iterator (positions idx, idx+1, ... modulo
the dataset length), and the learning-rate scheduler advances by exactly one
step at the epoch boundary. -/
theorem C9_epoch_steps_scheduler (ctx : Ctx) (a : Args) (sw : List (String × ℚ))
    (vbs : List Batch) (rs : RunState) (eo : EpochOut)
    (h : mainEpoch ctx a sw vbs rs = .ok eo) :
    eo.pulled.length = a.iters_per_epoch
    ∧ eo.pulled = (List.range a.iters_per_epoch).map
        (fun i => rs.it.data.getD ((rs.it.idx + i) % rs.it.data.length) batchDefault)
    ∧ eo.rs.it.idx = rs.it.idx + a.iters_per_epoch
    ∧ eo.rs.it.data = rs.it.data
    ∧ eo.rs.schedulerSteps = rs.schedulerSteps + 1 := by
  cases h1 : trainEpoch ctx a sw rs.st rs.it with
  | error e => simp only [mainEpoch, h1] at h; exact absurd h (by simp)
  | ok er =>
    simp only [mainEpoch, h1] at h
    cases h
    have hp := trainSteps_pulled ctx a sw a.iters_per_epoch rs.st rs.it TrainMeters.empty er h1
    exact ⟨by rw [hp.1]; simp, hp.1, hp.2.1, hp.2.2, rfl⟩

/-- Witness for C9 at the toy epoch. -/
theorem C9_witness :
    eo0.pulled.length = args0.iters_per_epoch
    ∧ eo0.rs.schedulerSteps = rs0.schedulerSteps + 1 :=
  ⟨(C9_epoch_steps_scheduler ctx0 args0 sw0 [b0] rs0 eo0 rfl).1,
   (C9_epoch_steps_scheduler ctx0 args0 sw0 [b0] rs0 eo0 rfl).2.2.2.2⟩

/-- Claim C10: under the default `l2_sp` strategy, if no epoch's validation
accuracy strictly exceeds the initial best of 0.0 (here: every accuracy is
exactly 0), all epochs still complete — the scheduler advances once per
epoch — yet the `best` checkpoint file is never created, and the
end-of-training reload of the best checkpoint (and hence the whole training
run) fails with the missing-file error. -/
theorem C10_zero_acc_missing_best (ctx : Ctx) (a : Args) (sw : List (String × ℚ))
    (vbs : List Batch) (bestFile : Option NetParams) (rs : RunState)
    (hphase : a.phase = .train) (hreg : a.reg_type = .l2_sp)
    (hacc : ∀ y l, ctx.accuracy1 y l = 0)
    (hbest : rs.ckpt.best = none) (hba : rs.ckpt.best_acc1 = 0) :
    ∃ rs', mainEpochs ctx a sw vbs a.epochs rs = .ok rs'
      ∧ rs'.ckpt.best = none
      ∧ rs'.schedulerSteps = rs.schedulerSteps + a.epochs
      ∧ torchLoad rs'.ckpt.best = .error .fileNotFound
      ∧ mainRun ctx a sw bestFile vbs rs = .error .fileNotFound := by
  obtain ⟨rs', h1, h2, h3, h4⟩ := mainEpochs_zero_acc ctx a sw vbs a.epochs rs hreg hacc hbest hba
  refine ⟨rs', h1, h2, h4, by rw [h2]; rfl, ?_⟩
  simp only [mainRun, hphase, h1, h2, torchLoad]

/-- Witness for C10 at the toy instance (accuracy is identically 0). -/
theorem C10_witness :
    ∃ rs', mainEpochs ctx0 args0 sw0 [b0] args0.epochs rs0 = .ok rs'
      ∧ rs'.ckpt.best = none
      ∧ rs'.schedulerSteps = rs0.schedulerSteps + args0.epochs
      ∧ torchLoad rs'.ckpt.best = .error .fileNotFound
      ∧ mainRun ctx0 args0 sw0 none [b0] rs0 = .error .fileNotFound :=
  C10_zero_acc_missing_best ctx0 args0 sw0 [b0] none rs0 rfl rfl (fun _ _ => rfl) rfl rfl

end Delta
